import Mathlib

/- Shallow embedding of the client-side financial projection engine of the
   kartopu_blog repository: the steady-withdrawal simulator
   (static/js/portfolio_sim.js, runSimulation), the goal-date solver
   (static/js/fire_logic.js, calculateFire) and the stochastic withdrawal
   analyzer (static/js/sorr-analyzer.js, runSimulation and boxMuller).

   JavaScript numbers are modelled as ℚ where the code is purely arithmetic
   (portfolio_sim.js) and as ℝ where the code uses transcendental functions
   (Math.pow, Math.log, Math.sqrt, Math.cos in the other two files).  Raw
   form fields are modelled by RawInput: the empty string, a non-empty
   unparseable string, or a string parsing to a given numeric value. -/

set_option maxHeartbeats 1000000

/-- A raw form field as the JS code sees it: empty string, a non-empty
string that parseFloat / parseInt cannot parse, or a string that parses to
the numeric value x. -/
inductive RawInput (α : Type) where
  | blank : RawInput α
  | junk : RawInput α
  | num (x : α) : RawInput α

/-- The JS idiom `parseFloat(s) || d` (and `parseInt(s) || d`): an empty or
unparseable string parses to NaN and `NaN || d` gives d, and a string
parsing to 0 also gives d because `0 || d` is d. -/
def parsedOr {α : Type} [DecidableEq α] [Zero α] : RawInput α → α → α
  | RawInput.blank, d => d
  | RawInput.junk, d => d
  | RawInput.num x, d => if x = 0 then d else x

/-- Truthiness of the raw string: in JS only the empty string is falsy
(the string "0" is truthy). -/
def RawInput.isBlank {α : Type} : RawInput α → Bool
  | RawInput.blank => true
  | _ => false

/-- The field is missing (empty) or unparseable. -/
def RawInput.isMissing {α : Type} (r : RawInput α) : Prop :=
  r = RawInput.blank ∨ r = RawInput.junk

/-- A depletion period as an extended natural number, `none` (never
depleted) mapping to infinity. -/
def deplE : Option ℕ → WithTop ℕ
  | none => ⊤
  | some d => (d : WithTop ℕ)

namespace Portfolio

/-- Loop state of runSimulation in portfolio_sim.js: the balances pushed so
far, the running balance, and the recorded depletion year. -/
structure SimState where
  balances : List ℚ
  currentBalance : ℚ
  depletionYear : Option ℕ

/-- One iteration (one year) of the loop in runSimulation:
`currentBalance = currentBalance * (1 + rc + rd) - w`, clamp at zero and
record the first clamp year, then push the balance. -/
def step (rc rd w : ℚ) (year : ℕ) (s : SimState) : SimState :=
  let b := s.currentBalance * (1 + rc + rd) - w
  if b < 0 then
    { balances := s.balances ++ [0]
      currentBalance := 0
      depletionYear := if s.depletionYear = none then some year else s.depletionYear }
  else
    { balances := s.balances ++ [b]
      currentBalance := b
      depletionYear := s.depletionYear }

/-- Run the loop from the given year for the given number of further years. -/
def loop (rc rd w : ℚ) : ℕ → ℕ → SimState → SimState
  | _, 0, s => s
  | y, Nat.succ n, s => loop rc rd w (y + 1) n (step rc rd w y s)

/-- The simulation core of runSimulation in portfolio_sim.js on parsed
parameters: start from `balances = [pv]` and iterate years 1..period. -/
def runSimulation (pv rc rd w : ℚ) (period : ℕ) : SimState :=
  loop rc rd w 1 period { balances := [pv], currentBalance := pv, depletionYear := none }

/-- Raw form fields read by runSimulation in portfolio_sim.js. -/
structure Inputs where
  pv : RawInput ℚ
  rc : RawInput ℚ
  rd : RawInput ℚ
  w : RawInput ℚ
  period : RawInput ℤ

/-- The parsed parameters of runSimulation. -/
structure Params where
  pv : ℚ
  rc : ℚ
  rd : ℚ
  w : ℚ
  period : ℕ

/-- Input parsing of runSimulation in portfolio_sim.js: percent fields are
divided by 100, the horizon uses `parseInt(...) || 30`, and the loop
`for (year = 1; year <= period; year++)` runs zero times for a
non-positive parsed horizon (Int.toNat). -/
def params (inp : Inputs) : Params :=
  { pv := parsedOr inp.pv 0
    rc := parsedOr inp.rc 0 / 100
    rd := parsedOr inp.rd 0 / 100
    w := parsedOr inp.w 0
    period := (parsedOr inp.period 30).toNat }

/-- Full runSimulation: parse the form fields, then run the loop. -/
def sim (inp : Inputs) : SimState :=
  runSimulation (params inp).pv (params inp).rc (params inp).rd (params inp).w
    (params inp).period

end Portfolio

namespace Sorr

/-- The global uniform random source (Math.random) as a stream of draws
together with the position of the next draw. -/
structure RandState where
  stream : ℕ → ℝ
  idx : ℕ

open Classical in
/-- Index of the first draw at or after i that is not exactly 0; models the
`while (u === 0) u = Math.random();` redraw loop in boxMuller.  If the
stream has no further nonzero draw the JS loop diverges; the embedding
then returns i (theorems assume an eventually nonzero stream). -/
noncomputable def skipZeros (u : ℕ → ℝ) (i : ℕ) : ℕ :=
  if h : ∃ k, u (i + k) ≠ 0 then i + Nat.find h else i

/-- boxMuller(mean, std) of sorr-analyzer.js: two fresh uniform draws
(each redrawn while exactly 0), then
`sqrt(-2 ln u) * cos(2 π v) * std + mean`. -/
noncomputable def boxMuller (mean std : ℝ) (rs : RandState) : ℝ × RandState :=
  let i1 := skipZeros rs.stream rs.idx
  let u := rs.stream i1
  let i2 := skipZeros rs.stream (i1 + 1)
  let v := rs.stream i2
  let num := Real.sqrt (-2 * Real.log u) * Real.cos (2 * Real.pi * v)
  (num * std + mean, { stream := rs.stream, idx := i2 + 1 })

/-- The scenario selector of sorr-analyzer.js: fixed mean, the scripted
stress pattern ("bad"), or random normal draws. -/
inductive Scenario where
  | fixed
  | bad
  | random

/-- Per-year return selection in runSimulation of sorr-analyzer.js:
`ret = avgRet`, overridden to -0.15 / -0.1 / -0.05 in years 1-3 for the
"bad" scenario, or drawn from boxMuller for the "random" scenario. -/
noncomputable def pickReturn (scenario : Scenario) (avgRet stdDev : ℝ) (year : ℕ)
    (rs : RandState) : ℝ × RandState :=
  match scenario with
  | Scenario.fixed => (avgRet, rs)
  | Scenario.bad =>
      (if year = 1 then -0.15 else if year = 2 then -0.1 else if year = 3 then -0.05
       else avgRet, rs)
  | Scenario.random => boxMuller avgRet stdDev rs

/-- Loop state of runSimulation in sorr-analyzer.js. -/
structure SimState where
  balances : List ℝ
  currentBalance : ℝ
  currentW : ℝ
  depletionYear : Option ℕ
  cumulativeWithdrawal : ℝ
  rand : RandState

/-- One iteration (one year) of the loop in runSimulation of
sorr-analyzer.js: pick the return, withdraw at the start of the year
(clamped), accumulate, grow the remainder, floor at zero, record the
depletion year (`currentBalance === 0 && depletionYear === null &&
withdrawalThisYear < currentW`), then escalate the withdrawal. -/
noncomputable def step (inflation avgRet stdDev : ℝ) (scenario : Scenario) (year : ℕ)
    (s : SimState) : SimState :=
  let rr := pickReturn scenario avgRet stdDev year s.rand
  let withdrawalThisYear :=
    if s.currentBalance < s.currentW then max 0 s.currentBalance else s.currentW
  let b1 := (s.currentBalance - withdrawalThisYear) * (1 + rr.1)
  let b2 := if b1 < 0 then 0 else b1
  { balances := s.balances ++ [b2]
    currentBalance := b2
    currentW := s.currentW * (1 + inflation)
    depletionYear :=
      if b2 = 0 ∧ s.depletionYear = none ∧ withdrawalThisYear < s.currentW then some year
      else s.depletionYear
    cumulativeWithdrawal := s.cumulativeWithdrawal + withdrawalThisYear
    rand := rr.2 }

/-- Run the loop from the given year for the given number of further years. -/
noncomputable def loop (inflation avgRet stdDev : ℝ) (scenario : Scenario) :
    ℕ → ℕ → SimState → SimState
  | _, 0, s => s
  | y, Nat.succ n, s =>
      loop inflation avgRet stdDev scenario (y + 1) n
        (step inflation avgRet stdDev scenario y s)

/-- The simulation core of runSimulation in sorr-analyzer.js on parsed
parameters. -/
noncomputable def runSimulation (pv wInitial inflation avgRet stdDev : ℝ)
    (scenario : Scenario) (period : ℕ) (rs : RandState) : SimState :=
  loop inflation avgRet stdDev scenario 1 period
    { balances := [pv], currentBalance := pv, currentW := wInitial,
      depletionYear := none, cumulativeWithdrawal := 0, rand := rs }

/-- Withdrawal entered as an amount or as a rate (percentage of pv). -/
inductive WType where
  | amount
  | rate

/-- Raw form fields read by runSimulation in sorr-analyzer.js. -/
structure Inputs where
  pv : RawInput ℝ
  w : RawInput ℝ
  wType : WType
  inflation : RawInput ℝ
  avgRet : RawInput ℝ
  stdDev : RawInput ℝ
  scenario : Scenario
  period : RawInput ℤ

/-- The parsed parameters of runSimulation in sorr-analyzer.js. -/
structure Params where
  pv : ℝ
  wInitial : ℝ
  inflation : ℝ
  avgRet : ℝ
  stdDev : ℝ
  period : ℕ

/-- Input parsing of runSimulation in sorr-analyzer.js: the initial
withdrawal is the amount, or `pv * (w / 100)` in rate mode; percent fields
divide by 100; the horizon uses `parseInt(...) || 30`. -/
noncomputable def params (inp : Inputs) : Params :=
  { pv := parsedOr inp.pv 0
    wInitial :=
      match inp.wType with
      | WType.amount => parsedOr inp.w 0
      | WType.rate => parsedOr inp.pv 0 * (parsedOr inp.w 0 / 100)
    inflation := parsedOr inp.inflation 0 / 100
    avgRet := parsedOr inp.avgRet 0 / 100
    stdDev := parsedOr inp.stdDev 0 / 100
    period := (parsedOr inp.period 30).toNat }

/-- Full runSimulation of sorr-analyzer.js: parse, then run. -/
noncomputable def sim (inp : Inputs) (rs : RandState) : SimState :=
  runSimulation (params inp).pv (params inp).wInitial (params inp).inflation
    (params inp).avgRet (params inp).stdDev inp.scenario (params inp).period rs

end Sorr

namespace Fire

/-- Raw form fields read by calculateFire in fire_logic.js. -/
structure Inputs where
  pv : RawInput ℝ
  income : RawInput ℝ
  monthlySpending : RawInput ℝ
  r : RawInput ℝ
  withdrawalRate : RawInput ℝ

/-- `isInputEmpty = !pvInput && !incomeInput && !monthlySpendingInput`:
only the pv, income and monthly-spending raw strings are inspected, and
only the empty string is falsy. -/
def inputsEmpty (inp : Inputs) : Bool :=
  inp.pv.isBlank && inp.income.isBlank && inp.monthlySpending.isBlank

/-- The parsed quantities computed at the top of calculateFire. -/
structure Params where
  pv : ℝ
  income : ℝ
  monthlySpending : ℝ
  pmt : ℝ
  r : ℝ
  spending : ℝ
  withdrawalRate : ℝ
  multiplier : ℝ
  goal : ℝ

/-- Input parsing of calculateFire in fire_logic.js: all fields default to
0 except the withdrawal rate, which uses `parseFloat(...) || 4`;
`pmt = income - monthlySpending`, `spending = monthlySpending * 12`,
`multiplier = 100 / withdrawalRate`, `goal = spending * multiplier`. -/
noncomputable def params (inp : Inputs) : Params :=
  { pv := parsedOr inp.pv 0
    income := parsedOr inp.income 0
    monthlySpending := parsedOr inp.monthlySpending 0
    pmt := parsedOr inp.income 0 - parsedOr inp.monthlySpending 0
    r := parsedOr inp.r 0 / 100
    spending := parsedOr inp.monthlySpending 0 * 12
    withdrawalRate := parsedOr inp.withdrawalRate 4
    multiplier := 100 / parsedOr inp.withdrawalRate 4
    goal := parsedOr inp.monthlySpending 0 * 12 * (100 / parsedOr inp.withdrawalRate 4) }

/-- The status strings calculateFire can put in statusOverride:
"Hesaplanıyor...", "Gider girmelisiniz", "Zaten Özgürsünüz!",
"Asla (Gelir yetersiz)". -/
inductive Status where
  | computing
  | enterSpending
  | alreadyFree
  | never
  deriving DecidableEq

/-- The months-to-goal value, a real number or JS Infinity. -/
inductive Months where
  | fin (m : ℝ)
  | inf

/-- The solver result handed to displayResults: months, the target amount,
and the optional status override. -/
structure Result where
  months : Months
  goal : ℝ
  statusOverride : Option Status

/-- The decision core of calculateFire in fire_logic.js, after input
parsing: special cases in order (blank inputs, non-positive spending, goal
already met), then `monthlyRate = r > 0 ? (1+r)^(1/12) - 1 : 0` and the
linear or compound-annuity solve. -/
noncomputable def core (isEmpty : Bool) (p : Params) : Result :=
  if isEmpty then
    { months := Months.inf, goal := p.goal, statusOverride := some Status.computing }
  else if p.spending ≤ 0 then
    { months := Months.inf, goal := p.goal, statusOverride := some Status.enterSpending }
  else if p.goal ≤ p.pv then
    { months := Months.fin 0, goal := p.goal, statusOverride := some Status.alreadyFree }
  else
    let monthlyRate := if 0 < p.r then (1 + p.r) ^ ((1 : ℝ) / 12) - 1 else 0
    if monthlyRate ≤ 0 then
      if p.pmt ≤ 0 then
        { months := Months.inf, goal := p.goal, statusOverride := some Status.never }
      else
        { months := Months.fin ((p.goal - p.pv) / p.pmt), goal := p.goal,
          statusOverride := none }
    else
      let numerator := p.goal + p.pmt / monthlyRate
      let denominator := p.pv + p.pmt / monthlyRate
      if denominator ≤ 0 ∨ numerator ≤ 0 then
        { months := Months.inf, goal := p.goal, statusOverride := some Status.never }
      else
        { months := Months.fin (Real.log (numerator / denominator) /
            Real.log (1 + monthlyRate)),
          goal := p.goal, statusOverride := none }

/-- calculateFire of fire_logic.js: parse the raw fields then decide. -/
noncomputable def calculateFire (inp : Inputs) : Result :=
  core (inputsEmpty inp) (params inp)

end Fire

/- ------------------------------------------------------------------ -/
/- Helper lemmas                                                      -/
/- ------------------------------------------------------------------ -/

theorem parsedOr_blank {α : Type} [DecidableEq α] [Zero α] (d : α) :
    parsedOr RawInput.blank d = d := rfl

theorem parsedOr_junk {α : Type} [DecidableEq α] [Zero α] (d : α) :
    parsedOr RawInput.junk d = d := rfl

theorem parsedOr_num {α : Type} [DecidableEq α] [Zero α] (x d : α) (h : x ≠ 0) :
    parsedOr (RawInput.num x) d = x := by simp [parsedOr, h]

theorem parsedOr_num_zero {α : Type} [DecidableEq α] [Zero α] (d : α) :
    parsedOr (RawInput.num 0) d = d := by simp [parsedOr]

theorem clamp_eq_max {α : Type} [LinearOrder α] [Zero α] [Decidable ((0 : α) < 0)]
    (x : α) [Decidable (x < 0)] :
    (if x < 0 then (0 : α) else x) = max 0 x := by
  rcases lt_or_le x 0 with h | h
  · rw [if_pos h, max_eq_left h.le]
  · rw [if_neg (not_lt.mpr h), max_eq_right h]

theorem getD_append_lt {α : Type} (l l' : List α) (d : α) :
    ∀ n, n < l.length → (l ++ l').getD n d = l.getD n d := by
  induction l with
  | nil => intro n h; simp at h
  | cons a t ih =>
      intro n h
      cases n with
      | zero => rfl
      | succ m =>
          simp only [List.cons_append, List.getD_cons_succ]
          exact ih m (by simpa using h)

theorem getD_concat_self {α : Type} (l : List α) (d a : α) :
    (l ++ [a]).getD l.length d = a := by
  induction l with
  | nil => rfl
  | cons b t ih =>
      simp only [List.cons_append, List.length_cons, List.getD_cons_succ]
      exact ih

namespace Portfolio

theorem step_balances (rc rd w : ℚ) (year : ℕ) (s : SimState) :
    (step rc rd w year s).balances
      = s.balances ++ [max 0 (s.currentBalance * (1 + rc + rd) - w)] := by
  by_cases h : s.currentBalance * (1 + rc + rd) - w < 0
  · simp [step, h, max_eq_left h.le]
  · simp [step, h, max_eq_right (not_lt.mp h)]

theorem step_currentBalance (rc rd w : ℚ) (year : ℕ) (s : SimState) :
    (step rc rd w year s).currentBalance
      = max 0 (s.currentBalance * (1 + rc + rd) - w) := by
  by_cases h : s.currentBalance * (1 + rc + rd) - w < 0
  · simp [step, h, max_eq_left h.le]
  · simp [step, h, max_eq_right (not_lt.mp h)]

theorem step_depl (rc rd w : ℚ) (year : ℕ) (s : SimState) :
    (step rc rd w year s).depletionYear
      = if s.currentBalance * (1 + rc + rd) - w < 0 then
          (if s.depletionYear = none then some year else s.depletionYear)
        else s.depletionYear := by
  by_cases h : s.currentBalance * (1 + rc + rd) - w < 0 <;> simp [step, h]

/-- Master invariant of the portfolio_sim.js loop: balance-list length,
running balance, stability of already-pushed entries, nonnegativity of
pushed entries, the clamped recurrence, and the first-negative-pre-clamp
characterisation of the depletion year. -/
theorem loop_spec (rc rd w : ℚ) :
    ∀ (n y : ℕ) (s : SimState), 1 ≤ y →
      s.balances.length = y →
      s.currentBalance = s.balances.getD (y - 1) 0 →
      (∀ k, 1 ≤ k → k < y →
        s.balances.getD k 0 = max 0 (s.balances.getD (k - 1) 0 * (1 + rc + rd) - w)) →
      (s.depletionYear = none →
        ∀ k, 1 ≤ k → k < y → 0 ≤ s.balances.getD (k - 1) 0 * (1 + rc + rd) - w) →
      (∀ d, s.depletionYear = some d →
        1 ≤ d ∧ d < y ∧ s.balances.getD (d - 1) 0 * (1 + rc + rd) - w < 0 ∧
          ∀ k, 1 ≤ k → k < d → 0 ≤ s.balances.getD (k - 1) 0 * (1 + rc + rd) - w) →
      (loop rc rd w y n s).balances.length = y + n ∧
      (loop rc rd w y n s).currentBalance
        = (loop rc rd w y n s).balances.getD (y + n - 1) 0 ∧
      (∀ k, k < y → (loop rc rd w y n s).balances.getD k 0 = s.balances.getD k 0) ∧
      (∀ x ∈ (loop rc rd w y n s).balances, x ∈ s.balances ∨ 0 ≤ x) ∧
      (∀ k, 1 ≤ k → k < y + n →
        (loop rc rd w y n s).balances.getD k 0
          = max 0 ((loop rc rd w y n s).balances.getD (k - 1) 0 * (1 + rc + rd) - w)) ∧
      ((loop rc rd w y n s).depletionYear = none →
        ∀ k, 1 ≤ k → k < y + n →
          0 ≤ (loop rc rd w y n s).balances.getD (k - 1) 0 * (1 + rc + rd) - w) ∧
      (∀ d, (loop rc rd w y n s).depletionYear = some d →
        1 ≤ d ∧ d < y + n ∧
          (loop rc rd w y n s).balances.getD (d - 1) 0 * (1 + rc + rd) - w < 0 ∧
          ∀ k, 1 ≤ k → k < d →
            0 ≤ (loop rc rd w y n s).balances.getD (k - 1) 0 * (1 + rc + rd) - w) := by
  intro n
  induction n with
  | zero =>
      intro y s hy hlen hcb heq hnone hsome
      exact ⟨hlen, hcb, fun k _ => rfl, fun x hx => Or.inl hx, heq, hnone, hsome⟩
  | succ n ih =>
      intro y s hy hlen hcb heq hnone hsome
      have hbal1 : (step rc rd w y s).balances
          = s.balances ++ [max 0 (s.currentBalance * (1 + rc + rd) - w)] :=
        step_balances rc rd w y s
      have hcb1 : (step rc rd w y s).currentBalance
          = max 0 (s.currentBalance * (1 + rc + rd) - w) :=
        step_currentBalance rc rd w y s
      have hd1 : (step rc rd w y s).depletionYear
          = if s.currentBalance * (1 + rc + rd) - w < 0 then
              (if s.depletionYear = none then some y else s.depletionYear)
            else s.depletionYear :=
        step_depl rc rd w y s
      have hlen1 : (step rc rd w y s).balances.length = y + 1 := by
        rw [hbal1]; simp [hlen]
      have htrans : ∀ k, k < y →
          (step rc rd w y s).balances.getD k 0 = s.balances.getD k 0 := by
        intro k hk
        rw [hbal1]
        exact getD_append_lt _ _ _ k (by rw [hlen]; exact hk)
      have htop : (step rc rd w y s).balances.getD y 0
          = max 0 (s.currentBalance * (1 + rc + rd) - w) := by
        rw [hbal1, show y = s.balances.length from hlen.symm]
        exact getD_concat_self _ _ _
      have hym : y - 1 < y := Nat.sub_lt (by omega) (by omega)
      have hcbs : (step rc rd w y s).balances.getD (y - 1) 0 = s.currentBalance := by
        rw [htrans _ hym, ← hcb]
      have hcb1' : (step rc rd w y s).currentBalance
          = (step rc rd w y s).balances.getD (y + 1 - 1) 0 := by
        rw [hcb1, Nat.add_sub_cancel]
        exact htop.symm
      have heq1 : ∀ k, 1 ≤ k → k < y + 1 →
          (step rc rd w y s).balances.getD k 0
            = max 0 ((step rc rd w y s).balances.getD (k - 1) 0 * (1 + rc + rd) - w) := by
        intro k hk1 hk2
        rcases Nat.lt_or_ge k y with hk | hk
        · have hk1' : k - 1 < y := by omega
          rw [htrans k hk, htrans (k - 1) hk1']
          exact heq k hk1 hk
        · have hk' : k = y := by omega
          subst hk'
          rw [htop, hcbs]
      have hnone1 : (step rc rd w y s).depletionYear = none →
          ∀ k, 1 ≤ k → k < y + 1 →
            0 ≤ (step rc rd w y s).balances.getD (k - 1) 0 * (1 + rc + rd) - w := by
        intro h1 k hk1 hk2
        have hnp : ¬ s.currentBalance * (1 + rc + rd) - w < 0 ∧ s.depletionYear = none := by
          by_cases hp : s.currentBalance * (1 + rc + rd) - w < 0
          · rw [hd1, if_pos hp] at h1
            by_cases hn : s.depletionYear = none
            · rw [if_pos hn] at h1; exact Option.noConfusion h1
            · rw [if_neg hn] at h1; exact absurd h1 hn
          · rw [hd1, if_neg hp] at h1; exact ⟨hp, h1⟩
        rcases Nat.lt_or_ge k y with hk | hk
        · have hk1' : k - 1 < y := by omega
          rw [htrans _ hk1']
          exact hnone hnp.2 k hk1 hk
        · have hk' : k = y := by omega
          subst hk'
          rw [hcbs]
          exact not_lt.mp hnp.1
      have hsome1 : ∀ d, (step rc rd w y s).depletionYear = some d →
          1 ≤ d ∧ d < y + 1 ∧
            (step rc rd w y s).balances.getD (d - 1) 0 * (1 + rc + rd) - w < 0 ∧
            ∀ k, 1 ≤ k → k < d →
              0 ≤ (step rc rd w y s).balances.getD (k - 1) 0 * (1 + rc + rd) - w := by
        intro d hd
        by_cases hp : s.currentBalance * (1 + rc + rd) - w < 0
        · rw [hd1, if_pos hp] at hd
          by_cases hn : s.depletionYear = none
          · rw [if_pos hn] at hd
            have hdy : y = d := Option.some_inj.mp hd
            subst hdy
            refine ⟨by omega, by omega, ?_, ?_⟩
            · rw [hcbs]; exact hp
            · intro k hk1 hk2
              have hk1' : k - 1 < y := by omega
              rw [htrans _ hk1']
              exact hnone hn k hk1 hk2
          · rw [if_neg hn] at hd
            obtain ⟨h1, h2, h3, h4⟩ := hsome d hd
            refine ⟨h1, by omega, ?_, ?_⟩
            · rw [htrans (d - 1) (by omega)]; exact h3
            · intro k hk1 hk2
              rw [htrans (k - 1) (by omega)]
              exact h4 k hk1 hk2
        · rw [hd1, if_neg hp] at hd
          obtain ⟨h1, h2, h3, h4⟩ := hsome d hd
          refine ⟨h1, by omega, ?_, ?_⟩
          · rw [htrans (d - 1) (by omega)]; exact h3
          · intro k hk1 hk2
            rw [htrans (k - 1) (by omega)]
            exact h4 k hk1 hk2
      obtain ⟨IA, IB, IC, ID, IE, IF, IG⟩ :=
        ih (y + 1) (step rc rd w y s) (by omega) hlen1 hcb1' heq1 hnone1 hsome1
      have hloop : loop rc rd w y (n + 1) s = loop rc rd w (y + 1) n (step rc rd w y s) := rfl
      rw [hloop]
      refine ⟨?_, ?_, ?_, ?_, ?_, ?_, ?_⟩
      · rw [IA]; omega
      · have harith : y + 1 + n - 1 = y + (n + 1) - 1 := by omega
        rw [harith] at IB
        exact IB
      · intro k hk
        rw [IC k (by omega), htrans k hk]
      · intro x hx
        rcases ID x hx with hx1 | hx2
        · rw [hbal1] at hx1
          rcases List.mem_append.mp hx1 with h | h
          · exact Or.inl h
          · have hx3 : x = max 0 (s.currentBalance * (1 + rc + rd) - w) := by
              simpa using h
            exact Or.inr (hx3 ▸ le_max_left 0 _)
        · exact Or.inr hx2
      · intro k hk1 hk2
        exact IE k hk1 (by omega)
      · intro h k hk1 hk2
        exact IF h k hk1 (by omega)
      · intro d hd
        obtain ⟨h1, h2, h3, h4⟩ := IG d hd
        exact ⟨h1, by omega, h3, h4⟩

end Portfolio

namespace Portfolio

/-- loop_spec instantiated at the initial state of runSimulation. -/
theorem run_spec (pv rc rd w : ℚ) (n : ℕ) :
    (runSimulation pv rc rd w n).balances.length = n + 1 ∧
    (runSimulation pv rc rd w n).balances.getD 0 0 = pv ∧
    (∀ x ∈ (runSimulation pv rc rd w n).balances, x = pv ∨ 0 ≤ x) ∧
    (∀ k, 1 ≤ k → k ≤ n →
      (runSimulation pv rc rd w n).balances.getD k 0
        = max 0 ((runSimulation pv rc rd w n).balances.getD (k - 1) 0 * (1 + rc + rd) - w)) ∧
    (∀ d, (runSimulation pv rc rd w n).depletionYear = some d →
      1 ≤ d ∧ d ≤ n ∧
        (runSimulation pv rc rd w n).balances.getD (d - 1) 0 * (1 + rc + rd) - w < 0 ∧
        ∀ k, 1 ≤ k → k < d →
          0 ≤ (runSimulation pv rc rd w n).balances.getD (k - 1) 0 * (1 + rc + rd) - w) := by
  have h0 := loop_spec rc rd w n 1
    { balances := [pv], currentBalance := pv, depletionYear := none }
    (le_refl 1) rfl rfl
    (by intro k hk1 hk2; omega)
    (by intro _ k hk1 hk2; omega)
    (by intro d hd; exact Option.noConfusion hd)
  obtain ⟨IA, IB, IC, ID, IE, IF, IG⟩ := h0
  refine ⟨?_, ?_, ?_, ?_, ?_⟩
  · rw [show runSimulation pv rc rd w n
        = loop rc rd w 1 n { balances := [pv], currentBalance := pv, depletionYear := none }
      from rfl, IA]
    omega
  · exact IC 0 (by omega)
  · intro x hx
    rcases ID x hx with h | h
    · exact Or.inl (by simpa using h)
    · exact Or.inr h
  · intro k hk1 hk2
    exact IE k hk1 (by omega)
  · intro d hd
    obtain ⟨h1, h2, h3, h4⟩ := IG d hd
    exact ⟨h1, by omega, h3, h4⟩

/-- Two-run comparison for the monotonicity of the depletion year in the
withdrawal amount, under a nonnegative combined growth factor. -/
theorem mono_loop (rc rd w1 w2 : ℚ) (hw : w1 ≤ w2) (hg : 0 ≤ 1 + rc + rd) :
    ∀ (n y : ℕ) (s1 s2 : SimState),
      s2.currentBalance ≤ s1.currentBalance →
      deplE s2.depletionYear ≤ deplE s1.depletionYear →
      (∀ d, s2.depletionYear = some d → d < y) →
      deplE (loop rc rd w2 y n s2).depletionYear
        ≤ deplE (loop rc rd w1 y n s1).depletionYear := by
  intro n
  induction n with
  | zero =>
      intro y s1 s2 _ hdep _
      exact hdep
  | succ n ih =>
      intro y s1 s2 hbal hdep hbound
      have hpre : s2.currentBalance * (1 + rc + rd) - w2
          ≤ s1.currentBalance * (1 + rc + rd) - w1 :=
        sub_le_sub (mul_le_mul_of_nonneg_right hbal hg) hw
      have hstep1 : loop rc rd w1 y (n + 1) s1
          = loop rc rd w1 (y + 1) n (step rc rd w1 y s1) := rfl
      have hstep2 : loop rc rd w2 y (n + 1) s2
          = loop rc rd w2 (y + 1) n (step rc rd w2 y s2) := rfl
      rw [hstep1, hstep2]
      have hd1 := step_depl rc rd w1 y s1
      have hd2 := step_depl rc rd w2 y s2
      have hcb1 := step_currentBalance rc rd w1 y s1
      have hcb2 := step_currentBalance rc rd w2 y s2
      have hbal' : (step rc rd w2 y s2).currentBalance
          ≤ (step rc rd w1 y s1).currentBalance := by
        rw [hcb1, hcb2]
        exact max_le_max (le_refl 0) hpre
      apply ih (y + 1) (step rc rd w1 y s1) (step rc rd w2 y s2) hbal'
      · -- deplE inequality after the step
        rcases h2 : s2.depletionYear with _ | d2
        · -- s2 has no depletion yet, hence neither has s1
          have h1 : s1.depletionYear = none := by
            rcases h1 : s1.depletionYear with _ | d1
            · rfl
            · rw [h1, h2] at hdep
              simp [deplE] at hdep
          by_cases hp1 : s1.currentBalance * (1 + rc + rd) - w1 < 0
          · have hp2 : s2.currentBalance * (1 + rc + rd) - w2 < 0 := lt_of_le_of_lt hpre hp1
            rw [hd1, hd2, if_pos hp1, if_pos hp2, h1, h2]
          · rw [hd1, if_neg hp1, h1]
            simp [deplE]
        · -- s2 already depleted at d2
          have hself : (step rc rd w2 y s2).depletionYear = some d2 := by
            rw [hd2, h2]
            by_cases hp2 : s2.currentBalance * (1 + rc + rd) - w2 < 0
            · rw [if_pos hp2]; simp
            · rw [if_neg hp2]
          rw [hself]
          rcases h1 : s1.depletionYear with _ | d1
          · -- s1 not yet depleted: it stays none or becomes some y, and d2 < y
            have hb2 : d2 < y := hbound d2 h2
            by_cases hp1 : s1.currentBalance * (1 + rc + rd) - w1 < 0
            · rw [hd1, if_pos hp1, h1]
              simp only [if_pos rfl]
              simp [deplE]
              omega
            · rw [hd1, if_neg hp1, h1]
              simp [deplE]
          · -- s1 already depleted at d1 with d2 ≤ d1
            have hstay : (step rc rd w1 y s1).depletionYear = some d1 := by
              rw [hd1, h1]
              by_cases hp1 : s1.currentBalance * (1 + rc + rd) - w1 < 0
              · rw [if_pos hp1]; simp
              · rw [if_neg hp1]
            rw [hstay]
            rw [h1, h2] at hdep
            exact hdep
      · -- bound on the newly recorded depletion year
        intro d hd
        rw [hd2] at hd
        by_cases hp2 : s2.currentBalance * (1 + rc + rd) - w2 < 0
        · rw [if_pos hp2] at hd
          rcases h2 : s2.depletionYear with _ | d2
          · rw [h2] at hd
            simp at hd
            omega
          · rw [h2] at hd
            simp at hd
            have := hbound d2 h2
            omega
        · rw [if_neg hp2] at hd
          have := hbound d hd
          omega

end Portfolio

namespace Sorr

theorem wd_eq_min (W b : ℝ) (h : 0 ≤ b) :
    (if b < W then max 0 b else W) = min W b := by
  by_cases hb : b < W
  · rw [if_pos hb, max_eq_right h, min_eq_right hb.le]
  · rw [if_neg hb, min_eq_left (not_lt.mp hb)]

theorem step_currentW (inflation avgRet stdDev : ℝ) (scenario : Scenario) (year : ℕ)
    (s : SimState) :
    (step inflation avgRet stdDev scenario year s).currentW
      = s.currentW * (1 + inflation) := rfl

theorem step_rand (inflation avgRet stdDev : ℝ) (scenario : Scenario) (year : ℕ)
    (s : SimState) :
    (step inflation avgRet stdDev scenario year s).rand
      = (pickReturn scenario avgRet stdDev year s.rand).2 := rfl

theorem step_push (inflation avgRet stdDev : ℝ) (scenario : Scenario) (year : ℕ)
    (s : SimState) :
    (step inflation avgRet stdDev scenario year s).balances
      = s.balances ++ [(step inflation avgRet stdDev scenario year s).currentBalance] := rfl

theorem step_bal_nonneg (inflation avgRet stdDev : ℝ) (scenario : Scenario) (year : ℕ)
    (s : SimState) :
    0 ≤ (step inflation avgRet stdDev scenario year s).currentBalance := by
  simp only [step]
  split_ifs
  all_goals first
  | exact le_refl 0
  | exact not_lt.mp (by assumption)

theorem step_cum (inflation avgRet stdDev : ℝ) (scenario : Scenario) (year : ℕ)
    (s : SimState) (h : 0 ≤ s.currentBalance) :
    (step inflation avgRet stdDev scenario year s).cumulativeWithdrawal
      = s.cumulativeWithdrawal + min s.currentW s.currentBalance := by
  simp only [step]
  rw [wd_eq_min s.currentW s.currentBalance h]

theorem step_newBalance (inflation avgRet stdDev : ℝ) (scenario : Scenario)
    (year : ℕ) (s : SimState) (h : 0 ≤ s.currentBalance) :
    (step inflation avgRet stdDev scenario year s).currentBalance
      = max 0 ((s.currentBalance - min s.currentW s.currentBalance)
          * (1 + (pickReturn scenario avgRet stdDev year s.rand).1)) := by
  simp only [step]
  rw [wd_eq_min s.currentW s.currentBalance h]
  exact clamp_eq_max _

theorem step_deplUpdate (inflation avgRet stdDev : ℝ) (scenario : Scenario) (year : ℕ)
    (s : SimState) (h : 0 ≤ s.currentBalance) :
    (step inflation avgRet stdDev scenario year s).depletionYear
      = if s.depletionYear = none ∧ s.currentBalance < s.currentW then some year
        else s.depletionYear := by
  by_cases hb : s.currentBalance < s.currentW
  · have hw : (if s.currentBalance < s.currentW then max 0 s.currentBalance
        else s.currentW) = s.currentBalance := by
      rw [if_pos hb, max_eq_right h]
    simp only [step, hw, sub_self, zero_mul, lt_irrefl, if_false]
    simp [hb]
  · have hw : (if s.currentBalance < s.currentW then max 0 s.currentBalance
        else s.currentW) = s.currentW := if_neg hb
    simp only [step, hw]
    simp [hb]

end Sorr

namespace Sorr

/-- Master invariant of the sorr-analyzer.js loop: balance-list length,
running balance (nonnegative), the inflation-escalated nominal withdrawal,
stability of already-pushed entries, nonnegativity of pushed entries, and
the first-under-withdrawal characterisation of the depletion year (the
nominal withdrawal of year k is `w0 * (1+inflation)^(k-1)`, and the actual
withdrawal of year k falls short of it exactly when the start-of-year
balance, entry k-1 of the balance list, is below it). -/
theorem loop_invariant (inflation avgRet stdDev : ℝ) (scenario : Scenario) (w0 : ℝ) :
    ∀ (n y : ℕ) (s : SimState), 1 ≤ y →
      s.balances.length = y →
      s.currentBalance = s.balances.getD (y - 1) 0 →
      0 ≤ s.currentBalance →
      s.currentW = w0 * (1 + inflation) ^ (y - 1) →
      (s.depletionYear = none →
        ∀ k, 1 ≤ k → k < y →
          w0 * (1 + inflation) ^ (k - 1) ≤ s.balances.getD (k - 1) 0) →
      (∀ d, s.depletionYear = some d →
        1 ≤ d ∧ d < y ∧
          s.balances.getD (d - 1) 0 < w0 * (1 + inflation) ^ (d - 1) ∧
          ∀ k, 1 ≤ k → k < d →
            w0 * (1 + inflation) ^ (k - 1) ≤ s.balances.getD (k - 1) 0) →
      (loop inflation avgRet stdDev scenario y n s).balances.length = y + n ∧
      (loop inflation avgRet stdDev scenario y n s).currentBalance
        = (loop inflation avgRet stdDev scenario y n s).balances.getD (y + n - 1) 0 ∧
      0 ≤ (loop inflation avgRet stdDev scenario y n s).currentBalance ∧
      (loop inflation avgRet stdDev scenario y n s).currentW
        = w0 * (1 + inflation) ^ (y + n - 1) ∧
      (∀ k, k < y →
        (loop inflation avgRet stdDev scenario y n s).balances.getD k 0
          = s.balances.getD k 0) ∧
      (∀ x ∈ (loop inflation avgRet stdDev scenario y n s).balances,
        x ∈ s.balances ∨ 0 ≤ x) ∧
      ((loop inflation avgRet stdDev scenario y n s).depletionYear = none →
        ∀ k, 1 ≤ k → k < y + n →
          w0 * (1 + inflation) ^ (k - 1)
            ≤ (loop inflation avgRet stdDev scenario y n s).balances.getD (k - 1) 0) ∧
      (∀ d, (loop inflation avgRet stdDev scenario y n s).depletionYear = some d →
        1 ≤ d ∧ d < y + n ∧
          (loop inflation avgRet stdDev scenario y n s).balances.getD (d - 1) 0
            < w0 * (1 + inflation) ^ (d - 1) ∧
          ∀ k, 1 ≤ k → k < d →
            w0 * (1 + inflation) ^ (k - 1)
              ≤ (loop inflation avgRet stdDev scenario y n s).balances.getD (k - 1) 0) := by
  intro n
  induction n with
  | zero =>
      intro y s hy hlen hcb hnn hW hnone hsome
      exact ⟨hlen, hcb, hnn, hW, fun k _ => rfl, fun x hx => Or.inl hx, hnone, hsome⟩
  | succ n ih =>
      intro y s hy hlen hcb hnn hW hnone hsome
      have hb1 : (step inflation avgRet stdDev scenario y s).balances
          = s.balances ++ [(step inflation avgRet stdDev scenario y s).currentBalance] :=
        step_push inflation avgRet stdDev scenario y s
      have hnn1 : 0 ≤ (step inflation avgRet stdDev scenario y s).currentBalance :=
        step_bal_nonneg inflation avgRet stdDev scenario y s
      have hW1 : (step inflation avgRet stdDev scenario y s).currentW
          = s.currentW * (1 + inflation) :=
        step_currentW inflation avgRet stdDev scenario y s
      have hd1 : (step inflation avgRet stdDev scenario y s).depletionYear
          = if s.depletionYear = none ∧ s.currentBalance < s.currentW then some y
            else s.depletionYear :=
        step_deplUpdate inflation avgRet stdDev scenario y s hnn
      have hlen1 : (step inflation avgRet stdDev scenario y s).balances.length = y + 1 := by
        rw [hb1]; simp [hlen]
      have htrans : ∀ k, k < y →
          (step inflation avgRet stdDev scenario y s).balances.getD k 0
            = s.balances.getD k 0 := by
        intro k hk
        rw [hb1]
        exact getD_append_lt _ _ _ k (by rw [hlen]; exact hk)
      have htop : (step inflation avgRet stdDev scenario y s).balances.getD y 0
          = (step inflation avgRet stdDev scenario y s).currentBalance := by
        rw [hb1, show y = s.balances.length from hlen.symm]
        exact getD_concat_self _ _ _
      have hym : y - 1 < y := Nat.sub_lt (by omega) (by omega)
      have hcbs : (step inflation avgRet stdDev scenario y s).balances.getD (y - 1) 0
          = s.currentBalance := by
        rw [htrans _ hym, ← hcb]
      have hcb1' : (step inflation avgRet stdDev scenario y s).currentBalance
          = (step inflation avgRet stdDev scenario y s).balances.getD (y + 1 - 1) 0 := by
        rw [Nat.add_sub_cancel]
        exact htop.symm
      have hW1' : (step inflation avgRet stdDev scenario y s).currentW
          = w0 * (1 + inflation) ^ (y + 1 - 1) := by
        rw [hW1, hW, Nat.add_sub_cancel, mul_assoc, ← pow_succ,
          show y - 1 + 1 = y from by omega]
      have hnone1 : (step inflation avgRet stdDev scenario y s).depletionYear = none →
          ∀ k, 1 ≤ k → k < y + 1 →
            w0 * (1 + inflation) ^ (k - 1)
              ≤ (step inflation avgRet stdDev scenario y s).balances.getD (k - 1) 0 := by
        intro h1 k hk1 hk2
        by_cases hcond : s.depletionYear = none ∧ s.currentBalance < s.currentW
        · rw [hd1, if_pos hcond] at h1
          exact Option.noConfusion h1
        · rw [hd1, if_neg hcond] at h1
          have hnb : ¬ s.currentBalance < s.currentW := fun hb => hcond ⟨h1, hb⟩
          rcases Nat.lt_or_ge k y with hk | hk
          · have hk1' : k - 1 < y := by omega
            rw [htrans _ hk1']
            exact hnone h1 k hk1 hk
          · have hk' : k = y := by omega
            subst hk'
            rw [hcbs, ← hW]
            exact not_lt.mp hnb
      have hsome1 : ∀ d, (step inflation avgRet stdDev scenario y s).depletionYear = some d →
          1 ≤ d ∧ d < y + 1 ∧
            (step inflation avgRet stdDev scenario y s).balances.getD (d - 1) 0
              < w0 * (1 + inflation) ^ (d - 1) ∧
            ∀ k, 1 ≤ k → k < d →
              w0 * (1 + inflation) ^ (k - 1)
                ≤ (step inflation avgRet stdDev scenario y s).balances.getD (k - 1) 0 := by
        intro d hd
        by_cases hcond : s.depletionYear = none ∧ s.currentBalance < s.currentW
        · rw [hd1, if_pos hcond] at hd
          have hdy : y = d := Option.some_inj.mp hd
          subst hdy
          refine ⟨by omega, by omega, ?_, ?_⟩
          · rw [hcbs, ← hW]
            exact hcond.2
          · intro k hk1 hk2
            have hk1' : k - 1 < y := by omega
            rw [htrans _ hk1']
            exact hnone hcond.1 k hk1 hk2
        · rw [hd1, if_neg hcond] at hd
          obtain ⟨h1, h2, h3, h4⟩ := hsome d hd
          refine ⟨h1, by omega, ?_, ?_⟩
          · rw [htrans (d - 1) (by omega)]; exact h3
          · intro k hk1 hk2
            rw [htrans (k - 1) (by omega)]
            exact h4 k hk1 hk2
      obtain ⟨IA, IB, IN, IW, IC, ID, IF, IG⟩ :=
        ih (y + 1) (step inflation avgRet stdDev scenario y s) (by omega) hlen1 hcb1' hnn1
          hW1' hnone1 hsome1
      have hloop : loop inflation avgRet stdDev scenario y (n + 1) s
          = loop inflation avgRet stdDev scenario (y + 1) n
              (step inflation avgRet stdDev scenario y s) := rfl
      rw [hloop]
      refine ⟨?_, ?_, IN, ?_, ?_, ?_, ?_, ?_⟩
      · rw [IA]; omega
      · have harith : y + 1 + n - 1 = y + (n + 1) - 1 := by omega
        rw [harith] at IB
        exact IB
      · have harith : y + 1 + n - 1 = y + (n + 1) - 1 := by omega
        rw [harith] at IW
        exact IW
      · intro k hk
        rw [IC k (by omega), htrans k hk]
      · intro x hx
        rcases ID x hx with hx1 | hx2
        · rw [hb1] at hx1
          rcases List.mem_append.mp hx1 with h | h
          · exact Or.inl h
          · have hx3 : x = (step inflation avgRet stdDev scenario y s).currentBalance := by
              simpa using h
            exact Or.inr (hx3 ▸ hnn1)
        · exact Or.inr hx2
      · intro h k hk1 hk2
        exact IF h k hk1 (by omega)
      · intro d hd
        obtain ⟨h1, h2, h3, h4⟩ := IG d hd
        exact ⟨h1, by omega, h3, h4⟩

/-- loop_spec instantiated at the initial state of runSimulation of
sorr-analyzer.js. -/
theorem run_facts (pv w0 inflation avgRet stdDev : ℝ) (scenario : Scenario) (n : ℕ)
    (rs : RandState) (hpv : 0 ≤ pv) :
    (runSimulation pv w0 inflation avgRet stdDev scenario n rs).balances.length = n + 1 ∧
    (runSimulation pv w0 inflation avgRet stdDev scenario n rs).balances.getD 0 0 = pv ∧
    (∀ x ∈ (runSimulation pv w0 inflation avgRet stdDev scenario n rs).balances, 0 ≤ x) ∧
    (∀ d, (runSimulation pv w0 inflation avgRet stdDev scenario n rs).depletionYear
        = some d →
      1 ≤ d ∧ d ≤ n ∧
        (runSimulation pv w0 inflation avgRet stdDev scenario n rs).balances.getD (d - 1) 0
          < w0 * (1 + inflation) ^ (d - 1) ∧
        ∀ k, 1 ≤ k → k < d →
          w0 * (1 + inflation) ^ (k - 1)
            ≤ (runSimulation pv w0 inflation avgRet stdDev scenario n rs).balances.getD
                (k - 1) 0) := by
  have h0 := loop_invariant inflation avgRet stdDev scenario w0 n 1
    { balances := [pv], currentBalance := pv, currentW := w0,
      depletionYear := none, cumulativeWithdrawal := 0, rand := rs }
    (le_refl 1) rfl rfl hpv (by simp)
    (by intro _ k hk1 hk2; omega)
    (by intro d hd; exact Option.noConfusion hd)
  obtain ⟨IA, IB, IN, IW, IC, ID, IF, IG⟩ := h0
  refine ⟨?_, ?_, ?_, ?_⟩
  · rw [show runSimulation pv w0 inflation avgRet stdDev scenario n rs
        = loop inflation avgRet stdDev scenario 1 n
            { balances := [pv], currentBalance := pv, currentW := w0,
              depletionYear := none, cumulativeWithdrawal := 0, rand := rs }
      from rfl, IA]
    omega
  · exact IC 0 (by omega)
  · intro x hx
    rcases ID x hx with h | h
    · have hx2 : x = pv := by simpa using h
      exact hx2 ▸ hpv
    · exact h
  · intro d hd
    obtain ⟨h1, h2, h3, h4⟩ := IG d hd
    exact ⟨h1, by omega, h3, h4⟩

end Sorr

namespace Sorr

theorem boxMuller_zero_std (mean : ℝ) (rs : RandState) :
    (boxMuller mean 0 rs).1 = mean := by
  simp [boxMuller]

theorem step_match (inflation avg : ℝ) (y : ℕ) (s1 s2 : SimState)
    (h1 : s1.balances = s2.balances) (h2 : s1.currentBalance = s2.currentBalance)
    (h3 : s1.currentW = s2.currentW) (h4 : s1.depletionYear = s2.depletionYear)
    (h5 : s1.cumulativeWithdrawal = s2.cumulativeWithdrawal) :
    (step inflation avg 0 Scenario.random y s1).balances
      = (step inflation avg 0 Scenario.fixed y s2).balances ∧
    (step inflation avg 0 Scenario.random y s1).currentBalance
      = (step inflation avg 0 Scenario.fixed y s2).currentBalance ∧
    (step inflation avg 0 Scenario.random y s1).currentW
      = (step inflation avg 0 Scenario.fixed y s2).currentW ∧
    (step inflation avg 0 Scenario.random y s1).depletionYear
      = (step inflation avg 0 Scenario.fixed y s2).depletionYear ∧
    (step inflation avg 0 Scenario.random y s1).cumulativeWithdrawal
      = (step inflation avg 0 Scenario.fixed y s2).cumulativeWithdrawal := by
  have hr1 : (pickReturn Scenario.random avg 0 y s1.rand).1 = avg := by
    simp [pickReturn, boxMuller]
  have hr2 : (pickReturn Scenario.fixed avg 0 y s2.rand).1 = avg := rfl
  simp only [step, hr1, hr2, h1, h2, h3, h4, h5]
  refine ⟨?_, ?_, ?_, ?_, ?_⟩ <;> first | rfl | trivial

theorem loop_match (inflation avg : ℝ) :
    ∀ (n y : ℕ) (s1 s2 : SimState),
      s1.balances = s2.balances → s1.currentBalance = s2.currentBalance →
      s1.currentW = s2.currentW → s1.depletionYear = s2.depletionYear →
      s1.cumulativeWithdrawal = s2.cumulativeWithdrawal →
      (loop inflation avg 0 Scenario.random y n s1).balances
        = (loop inflation avg 0 Scenario.fixed y n s2).balances ∧
      (loop inflation avg 0 Scenario.random y n s1).currentBalance
        = (loop inflation avg 0 Scenario.fixed y n s2).currentBalance ∧
      (loop inflation avg 0 Scenario.random y n s1).currentW
        = (loop inflation avg 0 Scenario.fixed y n s2).currentW ∧
      (loop inflation avg 0 Scenario.random y n s1).depletionYear
        = (loop inflation avg 0 Scenario.fixed y n s2).depletionYear ∧
      (loop inflation avg 0 Scenario.random y n s1).cumulativeWithdrawal
        = (loop inflation avg 0 Scenario.fixed y n s2).cumulativeWithdrawal := by
  intro n
  induction n with
  | zero =>
      intro y s1 s2 h1 h2 h3 h4 h5
      exact ⟨h1, h2, h3, h4, h5⟩
  | succ n ih =>
      intro y s1 s2 h1 h2 h3 h4 h5
      obtain ⟨g1, g2, g3, g4, g5⟩ := step_match inflation avg y s1 s2 h1 h2 h3 h4 h5
      exact ih (y + 1) _ _ g1 g2 g3 g4 g5

theorem skipZeros_ne (u : ℕ → ℝ) (i : ℕ) (hnz : ∃ k, u (i + k) ≠ 0) :
    u (skipZeros u i) ≠ 0 := by
  classical
  rw [skipZeros, dif_pos hnz]
  exact Nat.find_spec hnz

end Sorr

/- ------------------------------------------------------------------ -/
/- Claim theorems                                                     -/
/- ------------------------------------------------------------------ -/

/-- C3: in the Steady-Withdrawal Simulator, each period's balance equals
the previous balance times (1 + capitalRate + dividendRate) minus the
withdrawal, clamped to zero when negative; and the depletion period, if
set, equals the first period index at which the pre-clamp balance is
negative (hence it is recorded only once and a later zero crossing never
overwrites it). -/
theorem steady_recurrence_depletion (pv rc rd w : ℚ) (n k : ℕ)
    (hk : 1 ≤ k) (hkn : k ≤ n) :
    (Portfolio.runSimulation pv rc rd w n).balances.getD k 0
      = max 0 ((Portfolio.runSimulation pv rc rd w n).balances.getD (k - 1) 0
          * (1 + rc + rd) - w) ∧
    ∀ d, (Portfolio.runSimulation pv rc rd w n).depletionYear = some d →
      1 ≤ d ∧ d ≤ n ∧
        (Portfolio.runSimulation pv rc rd w n).balances.getD (d - 1) 0
          * (1 + rc + rd) - w < 0 ∧
        ∀ j, 1 ≤ j → j < d →
          0 ≤ (Portfolio.runSimulation pv rc rd w n).balances.getD (j - 1) 0
              * (1 + rc + rd) - w := by
  obtain ⟨_, _, _, heq, hsome⟩ := Portfolio.run_spec pv rc rd w n
  exact ⟨heq k hk hkn, hsome⟩

/-- Witness for C3 at pv = 1, rates 0, withdrawal 2, horizon 1: the run
depletes in year 1 and the recurrence and depletion characterisation hold. -/
theorem steady_recurrence_depletion_witness :
    (Portfolio.runSimulation 1 0 0 2 1).depletionYear = some 1 ∧
    ((Portfolio.runSimulation 1 0 0 2 1).balances.getD 1 0
        = max 0 ((Portfolio.runSimulation 1 0 0 2 1).balances.getD 0 0
            * (1 + 0 + 0) - 2) ∧
      ∀ d, (Portfolio.runSimulation 1 0 0 2 1).depletionYear = some d →
        1 ≤ d ∧ d ≤ 1 ∧
          (Portfolio.runSimulation 1 0 0 2 1).balances.getD (d - 1) 0
            * (1 + 0 + 0) - 2 < 0 ∧
          ∀ j, 1 ≤ j → j < d →
            0 ≤ (Portfolio.runSimulation 1 0 0 2 1).balances.getD (j - 1) 0
                * (1 + 0 + 0) - 2) :=
  ⟨by norm_num [Portfolio.runSimulation, Portfolio.loop, Portfolio.step],
    steady_recurrence_depletion 1 0 0 2 1 1 (by decide) (by decide)⟩

/-- C5 counterexample: with a combined growth factor below -100 percent
(rc = -300 percent) and negative withdrawals (deposits), the smaller
withdrawal w1 = -5 depletes in year 2 while the larger withdrawal
w2 = -3 never depletes, so increasing the withdrawal amount increased the
depletion period. -/
theorem steady_withdrawal_monotone_counterexample :
    ((-5 : ℚ) ≤ -3) ∧
    (Portfolio.runSimulation 1 (-3) 0 (-5) 2).depletionYear = some 2 ∧
    (Portfolio.runSimulation 1 (-3) 0 (-3) 2).depletionYear = none ∧
    ¬ deplE (Portfolio.runSimulation 1 (-3) 0 (-3) 2).depletionYear
        ≤ deplE (Portfolio.runSimulation 1 (-3) 0 (-5) 2).depletionYear := by
  have h1 : (Portfolio.runSimulation 1 (-3) 0 (-3) 2).depletionYear = none := by
    norm_num [Portfolio.runSimulation, Portfolio.loop, Portfolio.step]
  have h2 : (Portfolio.runSimulation 1 (-3) 0 (-5) 2).depletionYear = some 2 := by
    norm_num [Portfolio.runSimulation, Portfolio.loop, Portfolio.step]
  refine ⟨by norm_num, h2, h1, ?_⟩
  rw [h1, h2]
  simp [deplE]

/-- C5 (amended): for the Steady-Withdrawal Simulator with the same
present value, rates and horizon, and a combined growth factor
1 + capitalRate + dividendRate that is nonnegative, a larger withdrawal
amount never has a larger depletion period (treating an unset depletion
period as infinite). -/
theorem steady_withdrawal_monotone (pv rc rd w1 w2 : ℚ) (n : ℕ)
    (hw : w1 ≤ w2) (hg : 0 ≤ 1 + rc + rd) :
    deplE (Portfolio.runSimulation pv rc rd w2 n).depletionYear
      ≤ deplE (Portfolio.runSimulation pv rc rd w1 n).depletionYear :=
  Portfolio.mono_loop rc rd w1 w2 hw hg n 1
    { balances := [pv], currentBalance := pv, depletionYear := none }
    { balances := [pv], currentBalance := pv, depletionYear := none }
    (le_refl pv) (le_refl _) (by intro d hd; exact Option.noConfusion hd)

/-- Witness for the amended C5 at pv = 100, rates 0, withdrawals 10 and
200, horizon 3. -/
theorem steady_withdrawal_monotone_witness :
    ((10 : ℚ) ≤ 200) ∧ ((0 : ℚ) ≤ 1 + 0 + 0) ∧
    deplE (Portfolio.runSimulation 100 0 0 200 3).depletionYear
      ≤ deplE (Portfolio.runSimulation 100 0 0 10 3).depletionYear :=
  ⟨by norm_num, by norm_num,
    steady_withdrawal_monotone 100 0 0 10 200 3 (by norm_num) (by norm_num)⟩

/-- C6: for every horizon n ≥ 1 and nonnegative present value (the spec's
data model requires present value ≥ 0), both the Steady-Withdrawal
Simulator and the Stochastic Withdrawal Analyzer return a balance
sequence of exactly n+1 entries whose entry 0 is the present value and
all of whose entries are nonnegative. -/
theorem sim_balances_shape (pv rc rd w : ℚ) (n : ℕ)
    (pv2 w0 inflation avgRet stdDev : ℝ) (scenario : Sorr.Scenario)
    (rs : Sorr.RandState) (_hn : 1 ≤ n) (hpv : 0 ≤ pv) (hpv2 : 0 ≤ pv2) :
    ((Portfolio.runSimulation pv rc rd w n).balances.length = n + 1 ∧
      (Portfolio.runSimulation pv rc rd w n).balances.getD 0 0 = pv ∧
      ∀ x ∈ (Portfolio.runSimulation pv rc rd w n).balances, 0 ≤ x) ∧
    ((Sorr.runSimulation pv2 w0 inflation avgRet stdDev scenario n rs).balances.length
        = n + 1 ∧
      (Sorr.runSimulation pv2 w0 inflation avgRet stdDev scenario n rs).balances.getD 0 0
        = pv2 ∧
      ∀ x ∈ (Sorr.runSimulation pv2 w0 inflation avgRet stdDev scenario n rs).balances,
        0 ≤ x) := by
  obtain ⟨hl, h0, hmem, _, _⟩ := Portfolio.run_spec pv rc rd w n
  obtain ⟨hl2, h02, hmem2, _⟩ :=
    Sorr.run_facts pv2 w0 inflation avgRet stdDev scenario n rs hpv2
  refine ⟨⟨hl, h0, ?_⟩, hl2, h02, hmem2⟩
  intro x hx
  rcases hmem x hx with h | h
  · exact h ▸ hpv
  · exact h

/-- Witness for C6 at horizon 1 with zero parameters and the fixed
scenario. -/
theorem sim_balances_shape_witness :
    (1 ≤ 1 ∧ (0 : ℚ) ≤ 0 ∧ (0 : ℝ) ≤ 0) ∧
    (((Portfolio.runSimulation 0 0 0 0 1).balances.length = 1 + 1 ∧
        (Portfolio.runSimulation 0 0 0 0 1).balances.getD 0 0 = 0 ∧
        ∀ x ∈ (Portfolio.runSimulation 0 0 0 0 1).balances, 0 ≤ x) ∧
      ((Sorr.runSimulation 0 0 0 0 0 Sorr.Scenario.fixed 1
          { stream := fun _ => 0, idx := 0 }).balances.length = 1 + 1 ∧
        (Sorr.runSimulation 0 0 0 0 0 Sorr.Scenario.fixed 1
          { stream := fun _ => 0, idx := 0 }).balances.getD 0 0 = 0 ∧
        ∀ x ∈ (Sorr.runSimulation 0 0 0 0 0 Sorr.Scenario.fixed 1
          { stream := fun _ => 0, idx := 0 }).balances, 0 ≤ x)) :=
  ⟨⟨le_refl 1, le_refl 0, le_refl 0⟩,
    sim_balances_shape 0 0 0 0 1 0 0 0 0 0 Sorr.Scenario.fixed
      { stream := fun _ => 0, idx := 0 } (le_refl 1) (le_refl 0) (le_refl 0)⟩

/-- C7: with standard deviation 0, the stochastic (random) scenario of the
Stochastic Withdrawal Analyzer produces, for every uniform random stream,
exactly the balance sequence, depletion period and cumulative-withdrawal
total of the fixed scenario with the same mean return and otherwise
identical parameters. -/
theorem sorr_zero_std_matches_fixed (pv w0 inflation avg : ℝ) (n : ℕ)
    (rs : Sorr.RandState) :
    (Sorr.runSimulation pv w0 inflation avg 0 Sorr.Scenario.random n rs).balances
      = (Sorr.runSimulation pv w0 inflation avg 0 Sorr.Scenario.fixed n rs).balances ∧
    (Sorr.runSimulation pv w0 inflation avg 0 Sorr.Scenario.random n rs).depletionYear
      = (Sorr.runSimulation pv w0 inflation avg 0 Sorr.Scenario.fixed n rs).depletionYear ∧
    (Sorr.runSimulation pv w0 inflation avg 0 Sorr.Scenario.random n rs).cumulativeWithdrawal
      = (Sorr.runSimulation pv w0 inflation avg 0 Sorr.Scenario.fixed n rs).cumulativeWithdrawal := by
  obtain ⟨h1, _, _, h4, h5⟩ := Sorr.loop_match inflation avg n 1
    { balances := [pv], currentBalance := pv, currentW := w0,
      depletionYear := none, cumulativeWithdrawal := 0, rand := rs }
    { balances := [pv], currentBalance := pv, currentW := w0,
      depletionYear := none, cumulativeWithdrawal := 0, rand := rs }
    rfl rfl rfl rfl rfl
  exact ⟨h1, h4, h5⟩

/-- C9: the Box-Muller sampler redraws zero uniforms, so the draw fed to
the logarithm is strictly positive and the logarithm argument -2 ln u is
nonnegative (no NaN or infinity can arise from it), and with standard
deviation 0 the sampler returns exactly the mean. -/
theorem boxMuller_safe (u : ℕ → ℝ) (i : ℕ) (mean : ℝ)
    (hrange : ∀ j, 0 ≤ u j ∧ u j < 1)
    (hnz : ∀ j, ∃ k, u (j + k) ≠ 0) :
    0 < u (Sorr.skipZeros u i) ∧
    0 ≤ -2 * Real.log (u (Sorr.skipZeros u i)) ∧
    0 < u (Sorr.skipZeros u (Sorr.skipZeros u i + 1)) ∧
    (Sorr.boxMuller mean 0 { stream := u, idx := i }).1 = mean := by
  have hu1 : u (Sorr.skipZeros u i) ≠ 0 := Sorr.skipZeros_ne u i (hnz i)
  have hp1 : 0 < u (Sorr.skipZeros u i) :=
    lt_of_le_of_ne (hrange _).1 (Ne.symm hu1)
  have hu2 : u (Sorr.skipZeros u (Sorr.skipZeros u i + 1)) ≠ 0 :=
    Sorr.skipZeros_ne u _ (hnz _)
  have hp2 : 0 < u (Sorr.skipZeros u (Sorr.skipZeros u i + 1)) :=
    lt_of_le_of_ne (hrange _).1 (Ne.symm hu2)
  have hlog : Real.log (u (Sorr.skipZeros u i)) ≤ 0 :=
    Real.log_nonpos (hrange _).1 (le_of_lt (hrange _).2)
  exact ⟨hp1, by linarith, hp2, Sorr.boxMuller_zero_std mean _⟩

/-- Witness for C9 with the constant stream 1/2 and mean 7. -/
theorem boxMuller_safe_witness :
    (∀ j : ℕ, 0 ≤ (fun _ : ℕ => (1 : ℝ) / 2) j ∧ (fun _ : ℕ => (1 : ℝ) / 2) j < 1) ∧
    0 < (fun _ : ℕ => (1 : ℝ) / 2) (Sorr.skipZeros (fun _ : ℕ => (1 : ℝ) / 2) 0) ∧
    (Sorr.boxMuller 7 0 { stream := fun _ : ℕ => (1 : ℝ) / 2, idx := 0 }).1 = 7 := by
  have hr : ∀ j : ℕ, 0 ≤ (fun _ : ℕ => (1 : ℝ) / 2) j ∧ (fun _ : ℕ => (1 : ℝ) / 2) j < 1 := by
    intro j
    constructor <;> norm_num
  have hn : ∀ j : ℕ, ∃ k, (fun _ : ℕ => (1 : ℝ) / 2) (j + k) ≠ 0 := by
    intro j
    exact ⟨0, by norm_num⟩
  obtain ⟨h1, h2, h3, h4⟩ := boxMuller_safe (fun _ : ℕ => (1 : ℝ) / 2) 0 7 hr hn
  exact ⟨hr, h1, h4⟩

/-- C2: in every period of the Stochastic Withdrawal Analyzer (balance
nonnegative, as guaranteed from a nonnegative present value): the actual
withdrawal is the nominal withdrawal clamped to the available balance
(min currentW balance), the cumulative total grows by it, the new balance
is (balance - actual) * (1 + return) floored at zero, the nominal
withdrawal is escalated by the inflation rate, the period return is the
mean (fixed), the scripted -15 / -10 / -5 percent pattern then the mean
(stressed), or a Box-Muller draw (stochastic), and the depletion period,
when set, is the first period whose start balance is below the nominal
withdrawal, i.e. the first period with an under-withdrawal. -/
theorem sorr_period_spec (inflation avgRet stdDev : ℝ) (scenario : Sorr.Scenario)
    (year : ℕ) (s : Sorr.SimState) (hs : 0 ≤ s.currentBalance) :
    ((Sorr.step inflation avgRet stdDev scenario year s).cumulativeWithdrawal
        = s.cumulativeWithdrawal + min s.currentW s.currentBalance ∧
      (Sorr.step inflation avgRet stdDev scenario year s).currentBalance
        = max 0 ((s.currentBalance - min s.currentW s.currentBalance)
            * (1 + (Sorr.pickReturn scenario avgRet stdDev year s.rand).1)) ∧
      (Sorr.step inflation avgRet stdDev scenario year s).balances
        = s.balances ++ [max 0 ((s.currentBalance - min s.currentW s.currentBalance)
            * (1 + (Sorr.pickReturn scenario avgRet stdDev year s.rand).1))] ∧
      (Sorr.step inflation avgRet stdDev scenario year s).currentW
        = s.currentW * (1 + inflation) ∧
      (Sorr.step inflation avgRet stdDev scenario year s).depletionYear
        = (if s.depletionYear = none ∧ min s.currentW s.currentBalance < s.currentW
           then some year else s.depletionYear)) ∧
    (Sorr.pickReturn Sorr.Scenario.fixed avgRet stdDev year s.rand = (avgRet, s.rand)) ∧
    (Sorr.pickReturn Sorr.Scenario.bad avgRet stdDev year s.rand
        = ((if year = 1 then -0.15 else if year = 2 then -0.1 else if year = 3 then -0.05
            else avgRet), s.rand)) ∧
    (Sorr.pickReturn Sorr.Scenario.random avgRet stdDev year s.rand
        = Sorr.boxMuller avgRet stdDev s.rand) ∧
    (∀ (pv w0 : ℝ) (n : ℕ) (rs : Sorr.RandState), 0 ≤ pv →
      ∀ d, (Sorr.runSimulation pv w0 inflation avgRet stdDev scenario n rs).depletionYear
          = some d →
        1 ≤ d ∧ d ≤ n ∧
          (Sorr.runSimulation pv w0 inflation avgRet stdDev scenario n rs).balances.getD
              (d - 1) 0 < w0 * (1 + inflation) ^ (d - 1) ∧
          ∀ k, 1 ≤ k → k < d →
            w0 * (1 + inflation) ^ (k - 1)
              ≤ (Sorr.runSimulation pv w0 inflation avgRet stdDev scenario n rs).balances.getD
                  (k - 1) 0) := by
  have hiff : (s.depletionYear = none ∧ min s.currentW s.currentBalance < s.currentW)
      ↔ (s.depletionYear = none ∧ s.currentBalance < s.currentW) := by
    constructor
    · rintro ⟨a, b⟩
      refine ⟨a, ?_⟩
      rcases min_lt_iff.mp b with h | h
      · exact absurd h (lt_irrefl _)
      · exact h
    · rintro ⟨a, b⟩
      exact ⟨a, min_lt_iff.mpr (Or.inr b)⟩
  refine ⟨⟨Sorr.step_cum inflation avgRet stdDev scenario year s hs,
      Sorr.step_newBalance inflation avgRet stdDev scenario year s hs, ?_, rfl, ?_⟩,
    rfl, rfl, rfl, ?_⟩
  · rw [Sorr.step_push, Sorr.step_newBalance inflation avgRet stdDev scenario year s hs]
  · rw [Sorr.step_deplUpdate inflation avgRet stdDev scenario year s hs]
    exact (if_congr hiff rfl rfl).symm
  · intro pv w0 n rs hpv d hd
    exact (Sorr.run_facts pv w0 inflation avgRet stdDev scenario n rs hpv).2.2.2 d hd

/-- Witness for C2 at a state with balance 5, nominal withdrawal 2, fixed
scenario: the cumulative-withdrawal and next-balance equations hold. -/
theorem sorr_period_spec_witness :
    (0 : ℝ) ≤ (Sorr.SimState.mk [5] 5 2 none 0
        (Sorr.RandState.mk (fun _ => 0) 0)).currentBalance ∧
    (Sorr.step 0 0 0 Sorr.Scenario.fixed 1
        (Sorr.SimState.mk [5] 5 2 none 0
          (Sorr.RandState.mk (fun _ => 0) 0))).cumulativeWithdrawal
      = (Sorr.SimState.mk [5] 5 2 none 0
          (Sorr.RandState.mk (fun _ => 0) 0)).cumulativeWithdrawal
        + min (Sorr.SimState.mk [5] 5 2 none 0
            (Sorr.RandState.mk (fun _ => 0) 0)).currentW
            (Sorr.SimState.mk [5] 5 2 none 0
              (Sorr.RandState.mk (fun _ => 0) 0)).currentBalance := by
  refine ⟨by norm_num, ?_⟩
  exact ((sorr_period_spec 0 0 0 Sorr.Scenario.fixed 1
    (Sorr.SimState.mk [5] 5 2 none 0 (Sorr.RandState.mk (fun _ => 0) 0))
    (by norm_num)).1).1

namespace Fire

theorem spending_pos_not_empty (inp : Inputs) (hs : 0 < (params inp).spending) :
    inputsEmpty inp = false := by
  cases hms : inp.monthlySpending with
  | blank =>
      exfalso
      have h0 : (params inp).spending = 0 := by simp [params, hms, parsedOr]
      rw [h0] at hs
      exact lt_irrefl 0 hs
  | junk =>
      exfalso
      have h0 : (params inp).spending = 0 := by simp [params, hms, parsedOr]
      rw [h0] at hs
      exact lt_irrefl 0 hs
  | num x =>
      simp [inputsEmpty, hms, RawInput.isBlank]

end Fire

/-- C1: for Goal-Date Solver inputs with positive annual spending (which
also forces the raw inputs not to be all blank) and present value below
the target, writing i for the effective monthly rate (1+r)^(1/12) - 1
(well defined as a real number for r ≥ -1; below -100 percent JS pow
yields NaN): if i ≤ 0 the solver returns months = (goal - pv) /
contribution for a positive contribution and infinity (unreachable)
otherwise; if i > 0 it returns months = ln((goal + c/i) / (pv + c/i)) /
ln(1+i) when both operands of the ratio are positive and infinity
(unreachable) otherwise. -/
theorem fire_months_formula (inp : Fire.Inputs)
    (hs : 0 < (Fire.params inp).spending)
    (hpv : (Fire.params inp).pv < (Fire.params inp).goal)
    (hr : (-1 : ℝ) ≤ (Fire.params inp).r) :
    ((1 + (Fire.params inp).r) ^ ((1 : ℝ) / 12) - 1 ≤ 0 →
      (Fire.calculateFire inp).months =
        if 0 < (Fire.params inp).pmt then
          Fire.Months.fin (((Fire.params inp).goal - (Fire.params inp).pv)
            / (Fire.params inp).pmt)
        else Fire.Months.inf) ∧
    (0 < (1 + (Fire.params inp).r) ^ ((1 : ℝ) / 12) - 1 →
      (Fire.calculateFire inp).months =
        if 0 < (Fire.params inp).goal + (Fire.params inp).pmt
              / ((1 + (Fire.params inp).r) ^ ((1 : ℝ) / 12) - 1) ∧
           0 < (Fire.params inp).pv + (Fire.params inp).pmt
              / ((1 + (Fire.params inp).r) ^ ((1 : ℝ) / 12) - 1) then
          Fire.Months.fin (Real.log
              (((Fire.params inp).goal + (Fire.params inp).pmt
                  / ((1 + (Fire.params inp).r) ^ ((1 : ℝ) / 12) - 1))
               / ((Fire.params inp).pv + (Fire.params inp).pmt
                  / ((1 + (Fire.params inp).r) ^ ((1 : ℝ) / 12) - 1)))
            / Real.log (1 + ((1 + (Fire.params inp).r) ^ ((1 : ℝ) / 12) - 1)))
        else Fire.Months.inf) := by
  have hempty : Fire.inputsEmpty inp = false := Fire.spending_pos_not_empty inp hs
  have hcf : Fire.calculateFire inp = Fire.core false (Fire.params inp) := by
    rw [Fire.calculateFire, hempty]
  have hns : ¬ (Fire.params inp).spending ≤ 0 := not_le.mpr hs
  have hngoal : ¬ (Fire.params inp).goal ≤ (Fire.params inp).pv := not_le.mpr hpv
  by_cases hr0 : 0 < (Fire.params inp).r
  · -- positive annual rate: the compound branch, i > 0
    have hip : 0 < (1 + (Fire.params inp).r) ^ ((1 : ℝ) / 12) - 1 := by
      have h1 : (1 : ℝ) < (1 + (Fire.params inp).r) ^ ((1 : ℝ) / 12) := by
        rw [Real.one_lt_rpow_iff_of_pos (by linarith)]
        exact Or.inl ⟨by linarith, by norm_num⟩
      linarith
    constructor
    · intro hle
      exact absurd hip (not_lt.mpr hle)
    · intro _
      rw [hcf, Fire.core]
      rw [if_neg (by simp), if_neg hns, if_neg hngoal]
      simp only [if_pos hr0]
      rw [if_neg (not_le.mpr hip)]
      by_cases hpos :
          0 < (Fire.params inp).goal + (Fire.params inp).pmt
              / ((1 + (Fire.params inp).r) ^ ((1 : ℝ) / 12) - 1) ∧
          0 < (Fire.params inp).pv + (Fire.params inp).pmt
              / ((1 + (Fire.params inp).r) ^ ((1 : ℝ) / 12) - 1)
      · rw [if_pos hpos, if_neg (by push_neg; exact ⟨hpos.2, hpos.1⟩)]
      · rw [if_neg hpos]
        have hcond : (Fire.params inp).pv + (Fire.params inp).pmt
              / ((1 + (Fire.params inp).r) ^ ((1 : ℝ) / 12) - 1) ≤ 0 ∨
            (Fire.params inp).goal + (Fire.params inp).pmt
              / ((1 + (Fire.params inp).r) ^ ((1 : ℝ) / 12) - 1) ≤ 0 := by
          rcases not_and_or.mp hpos with h | h
          · exact Or.inr (not_lt.mp h)
          · exact Or.inl (not_lt.mp h)
        rw [if_pos hcond]
  · -- non-positive annual rate: the linear branch, i ≤ 0
    have hrle : (Fire.params inp).r ≤ 0 := not_lt.mp hr0
    have hile : (1 + (Fire.params inp).r) ^ ((1 : ℝ) / 12) - 1 ≤ 0 := by
      have h1 : (1 + (Fire.params inp).r) ^ ((1 : ℝ) / 12) ≤ 1 :=
        Real.rpow_le_one (by linarith) (by linarith) (by norm_num)
      linarith
    constructor
    · intro _
      rw [hcf, Fire.core]
      rw [if_neg (by simp), if_neg hns, if_neg hngoal]
      simp only [if_neg hr0]
      rw [if_pos (le_refl (0 : ℝ))]
      by_cases hpmt : 0 < (Fire.params inp).pmt
      · rw [if_pos hpmt, if_neg (not_le.mpr hpmt)]
      · rw [if_neg hpmt, if_pos (not_lt.mp hpmt)]
    · intro hgt
      exact absurd hgt (not_lt.mpr hile)

/-- Witness for C1 with pv 100000, income 3000, monthly spending 1000,
blank rate (so i = 0) and blank withdrawal rate (so the target is
1000 * 12 * 25 = 300000): the linear formula gives 100 months. -/
theorem fire_months_formula_witness :
    0 < (Fire.params (Fire.Inputs.mk (RawInput.num 100000) (RawInput.num 3000)
        (RawInput.num 1000) RawInput.blank RawInput.blank)).spending ∧
    (Fire.params (Fire.Inputs.mk (RawInput.num 100000) (RawInput.num 3000)
        (RawInput.num 1000) RawInput.blank RawInput.blank)).pv
      < (Fire.params (Fire.Inputs.mk (RawInput.num 100000) (RawInput.num 3000)
          (RawInput.num 1000) RawInput.blank RawInput.blank)).goal ∧
    (Fire.calculateFire (Fire.Inputs.mk (RawInput.num 100000) (RawInput.num 3000)
        (RawInput.num 1000) RawInput.blank RawInput.blank)).months
      = Fire.Months.fin 100 := by
  have hps : (Fire.params (Fire.Inputs.mk (RawInput.num 100000) (RawInput.num 3000)
      (RawInput.num 1000) RawInput.blank RawInput.blank))
      = Fire.Params.mk 100000 3000 1000 2000 0 12000 4 25 300000 := by
    simp only [Fire.params, parsedOr]
    norm_num
  have hs : 0 < (Fire.params (Fire.Inputs.mk (RawInput.num 100000) (RawInput.num 3000)
      (RawInput.num 1000) RawInput.blank RawInput.blank)).spending := by
    rw [hps]; norm_num
  have hpv : (Fire.params (Fire.Inputs.mk (RawInput.num 100000) (RawInput.num 3000)
      (RawInput.num 1000) RawInput.blank RawInput.blank)).pv
      < (Fire.params (Fire.Inputs.mk (RawInput.num 100000) (RawInput.num 3000)
          (RawInput.num 1000) RawInput.blank RawInput.blank)).goal := by
    rw [hps]; norm_num
  have hr : (-1 : ℝ) ≤ (Fire.params (Fire.Inputs.mk (RawInput.num 100000)
      (RawInput.num 3000) (RawInput.num 1000) RawInput.blank RawInput.blank)).r := by
    rw [hps]; norm_num
  obtain ⟨hlin, _⟩ := fire_months_formula (Fire.Inputs.mk (RawInput.num 100000)
    (RawInput.num 3000) (RawInput.num 1000) RawInput.blank RawInput.blank) hs hpv hr
  have hi : (1 + (Fire.params (Fire.Inputs.mk (RawInput.num 100000) (RawInput.num 3000)
      (RawInput.num 1000) RawInput.blank RawInput.blank)).r) ^ ((1 : ℝ) / 12) - 1 ≤ 0 := by
    rw [hps]
    norm_num [Real.one_rpow]
  have hm := hlin hi
  rw [hps] at hm
  refine ⟨hs, hpv, ?_⟩
  rw [hm, if_pos (by norm_num : (0 : ℝ) < 2000)]
  norm_num

/-- C4 counterexample: with only the annual-rate field filled in (r = "5")
and everything else blank, annual spending parses to 0 and not all raw
inputs are blank, so the claim demands status "must enter spending"; the
code checks blankness only on the pv, income and monthly-spending fields
and returns status "computing". -/
theorem fire_blank_check_counterexample :
    (Fire.Inputs.mk RawInput.blank RawInput.blank RawInput.blank (RawInput.num 5)
        RawInput.blank).r ≠ RawInput.blank ∧
    (Fire.params (Fire.Inputs.mk RawInput.blank RawInput.blank RawInput.blank
        (RawInput.num 5) RawInput.blank)).spending ≤ 0 ∧
    (Fire.calculateFire (Fire.Inputs.mk RawInput.blank RawInput.blank RawInput.blank
        (RawInput.num 5) RawInput.blank)).statusOverride = some Fire.Status.computing ∧
    Fire.Status.computing ≠ Fire.Status.enterSpending := by
  refine ⟨by simp, by norm_num [Fire.params, parsedOr], ?_, by simp⟩
  rw [Fire.calculateFire, show Fire.inputsEmpty (Fire.Inputs.mk RawInput.blank
      RawInput.blank RawInput.blank (RawInput.num 5) RawInput.blank) = true from rfl,
    Fire.core, if_pos rfl]

/-- C4 (amended): the Goal-Date Solver evaluates its special cases in
order, with blankness judged on the present-value, income and
monthly-spending raw fields only: all three blank gives status
"computing" with infinite months; otherwise spending ≤ 0 gives status
"must enter spending" with infinite months (in particular pv = 3,000,000
with spending 0, whose pv field is nonblank); otherwise present value ≥
target gives 0 months with status "goal already met". -/
theorem fire_special_cases (inp : Fire.Inputs) :
    (Fire.inputsEmpty inp = true →
      (Fire.calculateFire inp).months = Fire.Months.inf ∧
      (Fire.calculateFire inp).statusOverride = some Fire.Status.computing) ∧
    (Fire.inputsEmpty inp = false → (Fire.params inp).spending ≤ 0 →
      (Fire.calculateFire inp).months = Fire.Months.inf ∧
      (Fire.calculateFire inp).statusOverride = some Fire.Status.enterSpending) ∧
    (Fire.inputsEmpty inp = false → 0 < (Fire.params inp).spending →
      (Fire.params inp).goal ≤ (Fire.params inp).pv →
      (Fire.calculateFire inp).months = Fire.Months.fin 0 ∧
      (Fire.calculateFire inp).statusOverride = some Fire.Status.alreadyFree) := by
  refine ⟨?_, ?_, ?_⟩
  · intro he
    rw [Fire.calculateFire, he, Fire.core, if_pos rfl]
    exact ⟨rfl, rfl⟩
  · intro he hsp
    rw [Fire.calculateFire, he, Fire.core, if_neg (by simp), if_pos hsp]
    exact ⟨rfl, rfl⟩
  · intro he hsp hgoal
    rw [Fire.calculateFire, he, Fire.core, if_neg (by simp),
      if_neg (not_le.mpr hsp), if_pos hgoal]
    exact ⟨rfl, rfl⟩

/-- Witness for the amended C4: all-blank inputs give "computing";
pv = 3,000,000 with everything else blank (spending 0) gives "must enter
spending"; pv = 1000 with monthly spending 1 (target 300) gives 0 months
and "goal already met". -/
theorem fire_special_cases_witness :
    (Fire.calculateFire (Fire.Inputs.mk RawInput.blank RawInput.blank RawInput.blank
        RawInput.blank RawInput.blank)).statusOverride = some Fire.Status.computing ∧
    (Fire.calculateFire (Fire.Inputs.mk (RawInput.num 3000000) RawInput.blank
        RawInput.blank RawInput.blank RawInput.blank)).statusOverride
      = some Fire.Status.enterSpending ∧
    (Fire.calculateFire (Fire.Inputs.mk (RawInput.num 1000) RawInput.blank
        (RawInput.num 1) RawInput.blank RawInput.blank)).months = Fire.Months.fin 0 ∧
    (Fire.calculateFire (Fire.Inputs.mk (RawInput.num 1000) RawInput.blank
        (RawInput.num 1) RawInput.blank RawInput.blank)).statusOverride
      = some Fire.Status.alreadyFree := by
  have h3 := (fire_special_cases (Fire.Inputs.mk (RawInput.num 1000) RawInput.blank
      (RawInput.num 1) RawInput.blank RawInput.blank)).2.2 rfl
    (by norm_num [Fire.params, parsedOr]) (by norm_num [Fire.params, parsedOr])
  exact ⟨((fire_special_cases (Fire.Inputs.mk RawInput.blank RawInput.blank
      RawInput.blank RawInput.blank RawInput.blank)).1 rfl).2,
    ((fire_special_cases (Fire.Inputs.mk (RawInput.num 3000000) RawInput.blank
        RawInput.blank RawInput.blank RawInput.blank)).2.1 rfl
      (by norm_num [Fire.params, parsedOr])).2,
    h3.1, h3.2⟩

/-- C8 counterexample: a blank projection horizon is defaulted to 30, not
to zero: the steady simulator with all fields blank produces 31 balance
entries, where a zero default would produce 1. -/
theorem default_not_zero_counterexample :
    (Portfolio.params (Portfolio.Inputs.mk RawInput.blank RawInput.blank RawInput.blank
        RawInput.blank RawInput.blank)).period = 30 ∧
    (30 : ℕ) ≠ 0 ∧
    (Portfolio.sim (Portfolio.Inputs.mk RawInput.blank RawInput.blank RawInput.blank
        RawInput.blank RawInput.blank)).balances.length = 31 ∧
    (31 : ℕ) ≠ 0 + 1 := by
  refine ⟨rfl, by norm_num, ?_, by norm_num⟩
  have h := (Portfolio.run_spec
    (Portfolio.params (Portfolio.Inputs.mk RawInput.blank RawInput.blank RawInput.blank
        RawInput.blank RawInput.blank)).pv
    (Portfolio.params (Portfolio.Inputs.mk RawInput.blank RawInput.blank RawInput.blank
        RawInput.blank RawInput.blank)).rc
    (Portfolio.params (Portfolio.Inputs.mk RawInput.blank RawInput.blank RawInput.blank
        RawInput.blank RawInput.blank)).rd
    (Portfolio.params (Portfolio.Inputs.mk RawInput.blank RawInput.blank RawInput.blank
        RawInput.blank RawInput.blank)).w
    (Portfolio.params (Portfolio.Inputs.mk RawInput.blank RawInput.blank RawInput.blank
        RawInput.blank RawInput.blank)).period).1
  rw [Portfolio.sim, h,
    show (Portfolio.params (Portfolio.Inputs.mk RawInput.blank RawInput.blank
        RawInput.blank RawInput.blank RawInput.blank)).period = 30 from rfl]

/-- C8 (amended): every missing or unparseable engine input falls back
silently to its field's documented default - zero for amounts and rates,
4 for the Goal-Date Solver's withdrawal rate and 30 for the simulators'
projection horizon - and every invocation of the three engines is a total
function returning a result (no error path exists in the embedding). -/
theorem input_defaults (fi : Fire.Inputs) (si : Portfolio.Inputs) (oi : Sorr.Inputs)
    (rs : Sorr.RandState) :
    (fi.pv.isMissing → (Fire.params fi).pv = 0) ∧
    (fi.income.isMissing → (Fire.params fi).income = 0) ∧
    (fi.monthlySpending.isMissing → (Fire.params fi).monthlySpending = 0) ∧
    (fi.r.isMissing → (Fire.params fi).r = 0) ∧
    (fi.withdrawalRate.isMissing → (Fire.params fi).withdrawalRate = 4) ∧
    (si.pv.isMissing → (Portfolio.params si).pv = 0) ∧
    (si.rc.isMissing → (Portfolio.params si).rc = 0) ∧
    (si.rd.isMissing → (Portfolio.params si).rd = 0) ∧
    (si.w.isMissing → (Portfolio.params si).w = 0) ∧
    (si.period.isMissing → (Portfolio.params si).period = 30) ∧
    (oi.pv.isMissing → (Sorr.params oi).pv = 0) ∧
    (oi.w.isMissing → (Sorr.params oi).wInitial = 0) ∧
    (oi.inflation.isMissing → (Sorr.params oi).inflation = 0) ∧
    (oi.avgRet.isMissing → (Sorr.params oi).avgRet = 0) ∧
    (oi.stdDev.isMissing → (Sorr.params oi).stdDev = 0) ∧
    (oi.period.isMissing → (Sorr.params oi).period = 30) ∧
    (∃ res, Fire.calculateFire fi = res) ∧
    (∃ res, Portfolio.sim si = res) ∧
    (∃ res, Sorr.sim oi rs = res) := by
  refine ⟨?_, ?_, ?_, ?_, ?_, ?_, ?_, ?_, ?_, ?_, ?_, ?_, ?_, ?_, ?_, ?_,
    ⟨_, rfl⟩, ⟨_, rfl⟩, ⟨_, rfl⟩⟩
  all_goals
    rintro (h | h) <;>
      first
      | (simp [RawInput.isMissing, Fire.params, Portfolio.params, Sorr.params, h,
            parsedOr]
         done)
      | (rcases hw : oi.wType with _ | _ <;>
          simp [Sorr.params, h, hw, parsedOr])

/-- Witness for the amended C8 at all-blank inputs: the withdrawal rate
defaults to 4, both horizons default to 30, and the analyzer's blank
withdrawal field gives an initial withdrawal of 0. -/
theorem input_defaults_witness :
    (Fire.params (Fire.Inputs.mk RawInput.blank RawInput.blank RawInput.blank
        RawInput.blank RawInput.blank)).withdrawalRate = 4 ∧
    (Portfolio.params (Portfolio.Inputs.mk RawInput.blank RawInput.blank RawInput.blank
        RawInput.blank RawInput.blank)).period = 30 ∧
    (Sorr.params (Sorr.Inputs.mk RawInput.blank RawInput.blank Sorr.WType.amount
        RawInput.blank RawInput.blank RawInput.blank Sorr.Scenario.fixed
        RawInput.blank)).wInitial = 0 ∧
    (Sorr.params (Sorr.Inputs.mk RawInput.blank RawInput.blank Sorr.WType.amount
        RawInput.blank RawInput.blank RawInput.blank Sorr.Scenario.fixed
        RawInput.blank)).period = 30 := by
  obtain ⟨_, _, _, _, h5, _, _, _, _, h10, _, h12, _, _, _, h16, _, _, _⟩ :=
    input_defaults
      (Fire.Inputs.mk RawInput.blank RawInput.blank RawInput.blank RawInput.blank
        RawInput.blank)
      (Portfolio.Inputs.mk RawInput.blank RawInput.blank RawInput.blank RawInput.blank
        RawInput.blank)
      (Sorr.Inputs.mk RawInput.blank RawInput.blank Sorr.WType.amount RawInput.blank
        RawInput.blank RawInput.blank Sorr.Scenario.fixed RawInput.blank)
      (Sorr.RandState.mk (fun _ => 0) 0)
  exact ⟨h5 (Or.inl rfl), h10 (Or.inl rfl), h12 (Or.inl rfl), h16 (Or.inl rfl)⟩

/-- C10: an input parsing to 0 is indistinguishable from an absent input
at the engine interface: a withdrawal rate of 0 is replaced by 4 in the
Goal-Date Solver (whose full result equals the blank-rate result) and a
horizon of 0 is replaced by 30 periods in both simulators (whose full
results equal the blank-horizon results). -/
theorem zero_input_uses_default (fi : Fire.Inputs) (si : Portfolio.Inputs)
    (oi : Sorr.Inputs) (rs : Sorr.RandState) :
    Fire.calculateFire { fi with withdrawalRate := RawInput.num 0 }
      = Fire.calculateFire { fi with withdrawalRate := RawInput.blank } ∧
    (Fire.params { fi with withdrawalRate := RawInput.num 0 }).withdrawalRate = 4 ∧
    Portfolio.sim { si with period := RawInput.num 0 }
      = Portfolio.sim { si with period := RawInput.blank } ∧
    (Portfolio.params { si with period := RawInput.num 0 }).period = 30 ∧
    Sorr.sim { oi with period := RawInput.num 0 } rs
      = Sorr.sim { oi with period := RawInput.blank } rs ∧
    (Sorr.params { oi with period := RawInput.num 0 }).period = 30 := by
  have hf : Fire.params { fi with withdrawalRate := RawInput.num 0 }
      = Fire.params { fi with withdrawalRate := RawInput.blank } := by
    simp [Fire.params, parsedOr]
  have hfe : Fire.inputsEmpty { fi with withdrawalRate := RawInput.num 0 }
      = Fire.inputsEmpty { fi with withdrawalRate := RawInput.blank } := rfl
  refine ⟨?_, ?_, ?_, ?_, ?_, ?_⟩
  · simp only [Fire.calculateFire]
    rw [hf, hfe]
  · simp [Fire.params, parsedOr]
  · have hp : Portfolio.params { si with period := RawInput.num 0 }
        = Portfolio.params { si with period := RawInput.blank } := by
      simp [Portfolio.params, parsedOr]
    simp only [Portfolio.sim]
    rw [hp]
  · simp [Portfolio.params, parsedOr]
  · have hp : Sorr.params { oi with period := RawInput.num 0 }
        = Sorr.params { oi with period := RawInput.blank } := by
      simp [Sorr.params, parsedOr]
    simp only [Sorr.sim]
    rw [hp]
  · simp [Sorr.params, parsedOr]
